import Mathlib

/-!
Shallow embedding of the blank-line calculator of this repository
(src/yapf/pytree/blank_line_calculator.py).

The parse tree is modelled as a rose tree of nodes carrying a numeric id
(standing for Python object identity), the node's type name (the grammar
symbol name for interior nodes, the token name such as "COMMENT", "ASYNC"
or "NAME" for leaves), the source line, the source column and the children.
Leaves are the nodes with no children.  The forest of children is a
dedicated inductive type so that all tree recursions are structural and
compute by kernel reduction; the list view of the children is recovered by
PTree.children.

The calculator writes a "newlines" value onto nodes and never reads
it back, so annotations are modelled outside the tree: the walk returns the
ordered list of writes (node id, written value), where a written value
none models Python None.  It also returns the trace of visited node ids,
one entry per call of the visitor's Visit dispatch, which lets us reason
about how often a node is visited.

Helper functions living in yapf.pytree.pytree_utils / pytree_visitor are
not part of src/ in this repository; each of those is modelled from the
spec and marked as such in its doc comment.  Everything else is a direct
translation of blank_line_calculator.py.
-/

namespace Yapf

mutual
/-- A pytree node: id, type name, line, column, children. -/
inductive PTree : Type where
  | mk : Nat → String → Nat → Nat → PForest → PTree
/-- A sibling sequence of pytree nodes. -/
inductive PForest : Type where
  | nil : PForest
  | cons : PTree → PForest → PForest
end

def PForest.toList : PForest → List PTree
  | .nil => []
  | .cons t f => t :: PForest.toList f

def PForest.ofList : List PTree → PForest
  | [] => .nil
  | t :: ts => .cons t (PForest.ofList ts)

/-- Build a node from a list of children. -/
def node (i : Nat) (k : String) (ln col : Nat) (cs : List PTree) : PTree :=
  .mk i k ln col (PForest.ofList cs)

def PTree.id : PTree → Nat
  | .mk i _ _ _ _ => i

def PTree.kind : PTree → String
  | .mk _ k _ _ _ => k

def PTree.lineno : PTree → Nat
  | .mk _ _ l _ _ => l

def PTree.column : PTree → Nat
  | .mk _ _ _ c _ => c

def PTree.children : PTree → List PTree
  | .mk _ _ _ _ f => f.toList

/-- Number of nodes in a forest. -/
def sizeF : PForest → Nat
  | .nil => 0
  | .cons (.mk _ _ _ _ f) rest => 1 + sizeF f + sizeF rest

/-- Number of nodes of the tree (used only to supply enough fuel to the
walk). -/
def PTree.size (t : PTree) : Nat := sizeF (.cons t .nil)

/-- First leaf of the first tree of a forest (recursing into first
children), if the forest is nonempty. -/
def firstLeafAux : PForest → Option PTree
  | .nil => none
  | .cons (.mk i k l c f) _ =>
    match firstLeafAux f with
    | some x => some x
    | none => some (PTree.mk i k l c f)

/-- Modelled from the spec: pytree_utils.FirstLeafNode — the node that
visually begins the logical unit: a leaf is its own first leaf, an interior
node delegates to its first child. -/
def FirstLeafNode (t : PTree) : PTree :=
  (firstLeafAux (.cons t .nil)).getD t

/-- Path from some tree of the forest down to the node with the given id
(inclusive), or none if the id does not occur. -/
def findPathF : PForest → Nat → Option (List PTree)
  | .nil, _ => none
  | .cons (.mk i k l c f) rest, target =>
    if i = target then some [PTree.mk i k l c f]
    else
      match findPathF f target with
      | some p => some (PTree.mk i k l c f :: p)
      | none => findPathF rest target

/-- Path from the root down to the node with the given id (inclusive).
This realises the parent back-links of the Python tree: the spec's data
model gives every node a unique parent reference, which a rose tree encodes
by the position of the node below the root. -/
def findPath (root : PTree) (target : Nat) : Option (List PTree) :=
  findPathF (.cons root .nil) target

/-- The parent of the node with the given id (the node.parent back-link). -/
def parentOf (root : PTree) (i : Nat) : Option PTree :=
  match findPath root i with
  | some p => p.dropLast.getLast?
  | none => none

/-- The element standing directly before the node with the given id in a
sibling list. -/
def prevInList (i : Nat) : List PTree → Option PTree
  | a :: b :: rest => if b.id = i then some a else prevInList i (b :: rest)
  | _ => none

/-- node.prev_sibling: the preceding child of the node's parent. -/
def prevSibling (root : PTree) (i : Nat) : Option PTree :=
  match parentOf root i with
  | some par => prevInList i par.children
  | none => none

/-- The predicate _AsyncFunction(node): the node's preceding sibling is the ASYNC token. -/
def AsyncFunction (root : PTree) (i : Nat) : Bool :=
  match prevSibling root i with
  | some ps => ps.kind == "ASYNC"
  | none => false

/-- The node with the given id followed by its ancestors, nearest first. -/
def selfAndAncestors (root : PTree) (i : Nat) : List PTree :=
  ((findPath root i).getD []).reverse

/-- Modelled from the spec: pytree_utils.EnclosingFunc — walk up from the
node (itself included) to the nearest enclosing function definition; none
when the nearest enclosing block is not a function definition. -/
def EnclosingFunc (root : PTree) (i : Nat) : Option PTree :=
  (selfAndAncestors root i).find? (fun a => a.kind == "funcdef")

/-- Modelled from the spec: pytree_utils.EnclosingClass applied to the
function's parent — the nearest class definition strictly above the node
with the given id. -/
def EnclosingClassOfParent (root : PTree) (i : Nat) : Option PTree :=
  ((selfAndAncestors root i).drop 1).find? (fun a => a.kind == "classdef")

/-- The predicate _MethodsInSameClass(prev_node, curr_node): resolve each side to its
nearest enclosing function definition, then to that function's nearest
enclosing class; true only when both classes exist and are the same node
(identity is id equality, ids being unique per tree). -/
def MethodsInSameClass (root : PTree) (prevId currId : Nat) : Bool :=
  match EnclosingFunc root prevId, EnclosingFunc root currId with
  | some pf, some cf =>
    match EnclosingClassOfParent root pf.id, EnclosingClassOfParent root cf.id with
    | some a, some b => a.id == b.id
    | _, _ => false
  | _, _ => false

/-- Modelled from the spec: pytree_utils.DecoratedTarget(node, ('funcdef',))
as used by _DecoratedFuncdef — the decorated target reachable from the
decorator via parent links: the last child of the nearest enclosing
'decorated' node, kept only when it is a funcdef. -/
def DecoratedFuncdef (root : PTree) (i : Nat) : Option PTree :=
  match (selfAndAncestors root i).find? (fun a => a.kind == "decorated") with
  | some d =>
    match d.children.getLast? with
    | some tgt => if tgt.kind == "funcdef" then some tgt else none
    | none => none
  | none => none

/-- The two style options read by the calculator, as supplied by the
style-configuration accessor (an external, read-only integer mapping). -/
structure StyleConfig where
  BLANK_LINES_AROUND_TOP_LEVEL_DEFINITION : Int
  BLANK_LINES_BETWEEN_CLASS_DEFS : Int

def NO_BLANK_LINES : Int := 1
def ONE_BLANK_LINE : Int := 2
def TWO_BLANK_LINES : Int := 3

def PYTHON_STATEMENTS : List String :=
  ["small_stmt", "expr_stmt", "print_stmt", "del_stmt", "pass_stmt",
   "break_stmt", "continue_stmt", "return_stmt", "raise_stmt", "yield_stmt",
   "import_stmt", "global_stmt", "exec_stmt", "assert_stmt", "if_stmt",
   "while_stmt", "for_stmt", "try_stmt", "with_stmt", "nonlocal_stmt",
   "async_stmt", "simple_stmt"]

/-- The mutable fields of _BlankLineCalculator. -/
structure BLState where
  class_level : Nat
  function_level : Nat
  last_comment_lineno : Nat
  last_was_decorator : Bool
  last_was_class_or_function : Bool
  prev_stmt : Option Nat

/-- The initial state built by _BlankLineCalculator.__init__. -/
def initState : BLState :=
  { class_level := 0
    function_level := 0
    last_comment_lineno := 0
    last_was_decorator := false
    last_was_class_or_function := false
    prev_stmt := none }

/-- Modelled from the spec: pytree_utils.IsCommentStatement — a standalone
comment is wrapped in a simple_stmt node with the comment token as its
first child. -/
def IsCommentStatement (t : PTree) : Bool :=
  t.kind == "simple_stmt" &&
    (match t.children with
     | c :: _ => c.kind == "COMMENT"
     | [] => false)

/-- The id of the comment token wrapped in a comment statement. -/
def commentLeafId (t : PTree) : Nat :=
  match t.children with
  | c :: _ => c.id
  | [] => 0

/-- The line of the comment token wrapped in a comment statement. -/
def commentLeafLineno (t : PTree) : Nat :=
  match t.children with
  | c :: _ => c.lineno
  | [] => 0

/-- The predicate _StartsInZerothColumn(node). -/
def StartsInZerothColumn (root : PTree) (t : PTree) : Bool :=
  (FirstLeafNode t).column == 0 ||
    (AsyncFunction root t.id &&
      (match prevSibling root t.id with
       | some ps => ps.column == 0
       | none => false))

/-- The predicate _BlankLineCalculator._IsTopLevel(node). -/
def IsTopLevel (root : PTree) (s : BLState) (t : PTree) : Bool :=
  (s.class_level == 0 && s.function_level == 0) && StartsInZerothColumn root t

/-- The function _BlankLineCalculator._GetNumNewlines(node): the annotation value to
write (1 = no blank line, 2 = one, 3 = two). -/
def GetNumNewlines (root : PTree) (cfg : StyleConfig) (s : BLState) (t : PTree) : Int :=
  if s.last_was_decorator then NO_BLANK_LINES
  else if IsTopLevel root s t then
    1 + cfg.BLANK_LINES_AROUND_TOP_LEVEL_DEFINITION
  else if (match s.prev_stmt with
           | some p => MethodsInSameClass root p t.id
           | none => false) then
    max ONE_BLANK_LINE (1 + cfg.BLANK_LINES_BETWEEN_CLASS_DEFS)
  else NO_BLANK_LINES

/-- The ordered list of annotation writes (node id, value written);
none models Python's explicit None. -/
abbrev Writes := List (Nat × Option Int)

/-- The routine _BlankLineCalculator._SetBlankLinesBetweenCommentAndClassFunc.
Returns (annotation writes, visit trace, index of the first non-comment
child).  The self.Visit call on each leading comment token dispatches to
the default leaf visit, which only records the visit, so the routine
changes no state. -/
def SetBlankLinesBetweenCommentAndClassFunc (root : PTree) (cfg : StyleConfig)
    (s : BLState) (t : PTree) : Writes × List Nat × Nat :=
  let lead := t.children.takeWhile IsCommentStatement
  let index := lead.length
  let commentVisits := lead.map commentLeafId
  let commentWrites : Writes :=
    if s.last_was_decorator then []
    else lead.map (fun c => (commentLeafId c, some ONE_BLANK_LINE))
  match (t.children.drop index).head? with
  | none => (commentWrites, commentVisits, index)
  | some nxt =>
    let adjacent : Bool :=
      match lead.getLast? with
      | some lc => commentLeafLineno lc + 1 == nxt.lineno
      | none => false
    let keywordWrite : Writes :=
      if adjacent then [(nxt.id, some NO_BLANK_LINES)]
      else if s.last_comment_lineno + 1 == nxt.lineno then
        [(nxt.id, some NO_BLANK_LINES)]
      else [(nxt.id, some (GetNumNewlines root cfg s t))]
    (commentWrites ++ keywordWrite, commentVisits, index)

/-- The annotation write of the overridden DefaultNodeVisit: if the last
entity was a class or function and the node is a recognised statement
kind, stamp its first leaf with the generic count. -/
def DefaultStampWrites (root : PTree) (cfg : StyleConfig) (s : BLState)
    (t : PTree) : Writes :=
  if s.last_was_class_or_function && PYTHON_STATEMENTS.contains t.kind then
    [((FirstLeafNode t).id, some (GetNumNewlines root cfg s (FirstLeafNode t)))]
  else []

/-- The annotation write of Visit_decorator on the decorator's first
token, following the priority order of lines 77 to 85 of the source. -/
def DecoratorWrite (root : PTree) (cfg : StyleConfig) (s : BLState)
    (t : PTree) : Writes :=
  match t.children with
  | c0 :: _ =>
    if s.last_comment_lineno != 0 && s.last_comment_lineno + 1 == c0.lineno then
      [(c0.id, some NO_BLANK_LINES)]
    else if s.last_was_decorator then
      [(c0.id, some NO_BLANK_LINES)]
    else if (match DecoratedFuncdef root t.id, s.prev_stmt with
             | some f, some p => MethodsInSameClass root p f.id
             | _, _ => false) then
      [(c0.id, some (max ONE_BLANK_LINE (1 + cfg.BLANK_LINES_BETWEEN_CLASS_DEFS)))]
    else
      [(c0.id, some (GetNumNewlines root cfg s t))]
  | [] => []

/-- The conditional second call inside Visit_funcdef (lines 104 to 109 of
the source): on an async function, run the comment placement routine on
the enclosing async unit and write an explicit None onto the def keyword;
otherwise run it again on the funcdef itself. -/
def FuncdefSecondCall (root : PTree) (cfg : StyleConfig) (s0 : BLState)
    (t : PTree) : Writes × List Nat × Nat :=
  if AsyncFunction root t.id then
    match parentOf root t.id with
    | some par =>
      let sbp := SetBlankLinesBetweenCommentAndClassFunc root cfg s0 par
      (sbp.1 ++ (match t.children with
                 | c0 :: _ => [(c0.id, (none : Option Int))]
                 | [] => []),
       sbp.2.1, sbp.2.2)
    | none => ([], [], 0)
  else
    SetBlankLinesBetweenCommentAndClassFunc root cfg s0 t

/-- One visit of a single node: PyTreeVisitor.Visit dispatch (modelled from
the spec: dispatch by node kind to the four specialised visit methods,
leaves to a no-op default leaf visit, other interior nodes to the
overridden DefaultNodeVisit, whose body is inlined in the simple_stmt and
default branches).  recurse is the walk used for the node's children.
Returns (state, annotation writes, visit trace of the nested visits). -/
def VisitNode (root : PTree) (cfg : StyleConfig)
    (recurse : BLState → List PTree → BLState × Writes × List Nat)
    (s : BLState) (t : PTree) : BLState × Writes × List Nat :=
  if t.kind == "simple_stmt" then
    -- Visit_simple_stmt: DefaultNodeVisit(node), then the comment check.
    let s1 := { s with last_was_class_or_function := false }
    let r := recurse s1 t.children
    let s2 :=
      match t.children with
      | c :: _ =>
        if c.kind == "COMMENT" then { r.1 with last_comment_lineno := c.lineno }
        else { r.1 with prev_stmt := some t.id }
      | [] => r.1
    (s2, DefaultStampWrites root cfg s t ++ r.2.1, r.2.2)
  else if t.kind == "decorator" then
    -- Visit_decorator.
    let r := recurse s t.children
    ({ r.1 with last_was_decorator := true },
     DecoratorWrite root cfg s t ++ r.2.1, r.2.2)
  else if t.kind == "classdef" then
    -- Visit_classdef.
    let s0 := { s with last_was_class_or_function := false }
    let sb := SetBlankLinesBetweenCommentAndClassFunc root cfg s0 t
    let s2 := { s0 with last_was_decorator := false, class_level := s0.class_level + 1 }
    let r := recurse s2 (t.children.drop sb.2.2)
    ({ r.1 with
        class_level := r.1.class_level - 1
        last_was_class_or_function := true
        prev_stmt := some t.id },
     sb.1 ++ r.2.1, sb.2.1 ++ r.2.2)
  else if t.kind == "funcdef" then
    -- Visit_funcdef, with the unconditional first call of
    -- _SetBlankLinesBetweenCommentAndClassFunc at line 103 followed by the
    -- conditional second call (async branch at line 105 / line 109).
    let s0 := { s with last_was_class_or_function := false }
    let sb1 := SetBlankLinesBetweenCommentAndClassFunc root cfg s0 t
    let sb2 := FuncdefSecondCall root cfg s0 t
    let s2 := { s0 with last_was_decorator := false, function_level := s0.function_level + 1 }
    let r := recurse s2 (t.children.drop sb2.2.2)
    ({ r.1 with
        function_level := r.1.function_level - 1
        last_was_class_or_function := true
        prev_stmt := some t.id },
     sb1.1 ++ sb2.1 ++ r.2.1, sb1.2.1 ++ sb2.2.1 ++ r.2.2)
  else if t.children.isEmpty then
    -- DefaultLeafVisit: nothing happens.
    (s, [], [])
  else
    -- DefaultNodeVisit.
    let s1 := { s with last_was_class_or_function := false }
    let r := recurse s1 t.children
    (r.1, DefaultStampWrites root cfg s t ++ r.2.1, r.2.2)

/-- The walk over a sibling list: visit the head node (prepending its id to
the visit trace), then the rest of the list, threading the state.  Uses
explicit fuel so that the recursion is structural; the walk of a tree is
run with fuel larger than the tree size, which is more than the recursion
ever consumes. -/
def VisitSeq (root : PTree) (cfg : StyleConfig) :
    Nat → BLState → List PTree → BLState × Writes × List Nat
  | 0, s, _ => (s, [], [])
  | _ + 1, s, [] => (s, [], [])
  | fuel + 1, s, t :: rest =>
    let r1 := VisitNode root cfg (VisitSeq root cfg fuel) s t
    let r2 := VisitSeq root cfg fuel r1.1 rest
    (r2.1, r1.2.1 ++ r2.2.1, (t.id :: r1.2.2) ++ r2.2.2)

/-- CalculateBlankLines(tree): run the visitor over the tree with a fresh
state.  Returns the final state, the ordered annotation writes and the
visit trace. -/
def CalculateBlankLines (cfg : StyleConfig) (tree : PTree) :
    BLState × Writes × List Nat :=
  VisitSeq tree cfg (tree.size + 1) initState [tree]

def walkWrites (cfg : StyleConfig) (tree : PTree) : Writes :=
  (CalculateBlankLines cfg tree).2.1

def walkVisits (cfg : StyleConfig) (tree : PTree) : List Nat :=
  (CalculateBlankLines cfg tree).2.2

/-- Apply annotation writes in order to an annotation store (node id to
current value; an absent value and Python None coincide for every reader of
the NEWLINES annotation, both read back as None). -/
def applyWrites (a : Nat → Option Int) : Writes → Nat → Option Int
  | [] => a
  | (i, v) :: ws => applyWrites (fun j => if j = i then v else a j) ws

/-- The last write to a given node id in a write list, if any. -/
def lookupLast : Writes → Nat → Option (Option Int)
  | [], _ => none
  | (i, v) :: ws, j =>
    match lookupLast ws j with
    | some r => some r
    | none => if j = i then some v else none

/-- The annotation of the node with the given id after one walk, starting
from an empty annotation store. -/
def annAfter (cfg : StyleConfig) (tree : PTree) (i : Nat) : Option Int :=
  applyWrites (fun _ => none) (walkWrites cfg tree) i

/-- The values a single annotation write can carry, for a fixed
configuration. -/
def ValOK (cfg : StyleConfig) (v : Option Int) : Prop :=
  v = none ∨ v = some NO_BLANK_LINES ∨ v = some ONE_BLANK_LINE ∨
    v = some (1 + cfg.BLANK_LINES_AROUND_TOP_LEVEL_DEFINITION) ∨
    v = some (max ONE_BLANK_LINE (1 + cfg.BLANK_LINES_BETWEEN_CLASS_DEFS))

def WritesOK (cfg : StyleConfig) (w : Writes) : Prop :=
  ∀ p ∈ w, ValOK cfg p.2

/-! Concrete input trees used by the end-to-end checks, written as the
parser stage would deliver them. -/

/-- def f(): on line 1 and def g(): on line 4, both at column 0:
two consecutive undecorated, comment-free top-level function definitions. -/
def treeTwoFuncs : PTree :=
  node 0 "file_input" 1 0
    [node 1 "funcdef" 1 0 [node 2 "NAME" 1 0 []],
     node 3 "funcdef" 4 0 [node 4 "NAME" 4 0 []]]

/-- class C: with two directly consecutive methods m (line 2) and n
(line 4) in its body. -/
def treeClassTwoMethods : PTree :=
  node 0 "file_input" 1 0
    [node 1 "classdef" 1 0
      [node 2 "NAME" 1 0 [],
       node 3 "suite" 1 7
         [node 4 "funcdef" 2 2 [node 5 "NAME" 2 2 []],
          node 6 "funcdef" 4 2 [node 7 "NAME" 4 2 []]]]]

/-- A non-async top-level function definition with one leading comment
child (comment on line 1, def keyword on line 2). -/
def treeFuncLeadingComment : PTree :=
  node 0 "file_input" 1 0
    [node 1 "funcdef" 1 0
      [node 2 "simple_stmt" 1 0 [node 3 "COMMENT" 1 0 []],
       node 4 "NAME" 2 0 []]]

/-- async def f(): at top level, line 1: the async_stmt unit holds the
ASYNC keyword (column 0) and the funcdef (def keyword at column 6). -/
def treeAsyncFunc : PTree :=
  node 0 "file_input" 1 0
    [node 1 "async_stmt" 1 0
      [node 2 "ASYNC" 1 0 [],
       node 3 "funcdef" 1 6 [node 4 "NAME" 1 6 []]]]

/-- A single function definition whose def keyword sits on source line 1. -/
def treeFuncLineOne : PTree :=
  node 0 "file_input" 1 0
    [node 1 "funcdef" 1 0 [node 2 "NAME" 1 0 []]]

/-- A standalone decorator node (children: the AT token and the name). -/
def treeDecorator : PTree :=
  node 0 "decorator" 5 0
    [node 1 "OP" 5 0 [], node 2 "NAME" 5 1 []]

def cfgTop1 : StyleConfig :=
  { BLANK_LINES_AROUND_TOP_LEVEL_DEFINITION := 1
    BLANK_LINES_BETWEEN_CLASS_DEFS := 1 }

def cfgTop2 : StyleConfig :=
  { BLANK_LINES_AROUND_TOP_LEVEL_DEFINITION := 2
    BLANK_LINES_BETWEEN_CLASS_DEFS := 1 }

def cfgTop3 : StyleConfig :=
  { BLANK_LINES_AROUND_TOP_LEVEL_DEFINITION := 3
    BLANK_LINES_BETWEEN_CLASS_DEFS := 1 }

/-- The visitor state at the moment the second method of
treeClassTwoMethods is visited: inside the class body, directly after the
first method. -/
def stateInsideClass : BLState :=
  { class_level := 1
    function_level := 0
    last_comment_lineno := 0
    last_was_decorator := false
    last_was_class_or_function := true
    prev_stmt := some 4 }

/-- The second method subtree of treeClassTwoMethods. -/
def methodTwo : PTree := node 6 "funcdef" 4 2 [node 7 "NAME" 4 2 []]

/-- A visitor state directly after a decorator has been visited. -/
def stateAfterDecorator : BLState :=
  { class_level := 0
    function_level := 0
    last_comment_lineno := 0
    last_was_decorator := true
    last_was_class_or_function := false
    prev_stmt := none }

/-- The second function subtree of treeTwoFuncs. -/
def funcTwo : PTree := node 3 "funcdef" 4 0 [node 4 "NAME" 4 0 []]

/-! Theorems. -/

theorem visitSeq_zero (root : PTree) (cfg : StyleConfig) (s : BLState) (ts : List PTree) :
    VisitSeq root cfg 0 s ts = (s, [], []) := rfl

theorem visitSeq_nil (root : PTree) (cfg : StyleConfig) (fuel : Nat) (s : BLState) :
    VisitSeq root cfg fuel s [] = (s, [], []) := by
  cases fuel <;> rfl

theorem visitSeq_succ_cons (root : PTree) (cfg : StyleConfig) (fuel : Nat) (s : BLState)
    (t : PTree) (rest : List PTree) :
    VisitSeq root cfg (fuel + 1) s (t :: rest) =
      (let r1 := VisitNode root cfg (VisitSeq root cfg fuel) s t
       let r2 := VisitSeq root cfg fuel r1.1 rest
       (r2.1, r1.2.1 ++ r2.2.1, (t.id :: r1.2.2) ++ r2.2.2)) := rfl

/-- C1 (corrected): with configured top-level value 1, the second of two
consecutive undecorated comment-free top-level function definitions gets
annotation value 2, i.e. one blank line, not annotation value 3 as the
claim states. -/
theorem c1_counterexample :
    annAfter cfgTop1 treeTwoFuncs 4 = some 2 ∧
      annAfter cfgTop1 treeTwoFuncs 4 ≠ some 3 := by
  decide

/-- C1 (amended): for a node at true top level (both nesting levels 0,
first token at column 0) not preceded by a decorator, the generic rule
returns the annotation value 1 + configured top-level value, i.e. the
configured value counts the blank lines themselves; in particular with
configured value 1 the second of two consecutive top-level function
definitions gets annotation value 2 (= 1 blank line). -/
theorem c1_amended_top_level_value (root : PTree) (cfg : StyleConfig) (s : BLState)
    (t : PTree) (hdec : s.last_was_decorator = false) (hc : s.class_level = 0)
    (hf : s.function_level = 0) (hcol : (FirstLeafNode t).column = 0) :
    GetNumNewlines root cfg s t = 1 + cfg.BLANK_LINES_AROUND_TOP_LEVEL_DEFINITION ∧
      annAfter cfgTop1 treeTwoFuncs 4 = some 2 := by
  constructor
  · have htop : IsTopLevel root s t = true := by
      simp [IsTopLevel, StartsInZerothColumn, hc, hf, hcol]
    simp [GetNumNewlines, hdec, htop]
  · decide

theorem c1_witness :
    GetNumNewlines treeTwoFuncs cfgTop1 initState funcTwo =
      1 + cfgTop1.BLANK_LINES_AROUND_TOP_LEVEL_DEFINITION ∧
      annAfter cfgTop1 treeTwoFuncs 4 = some 2 :=
  c1_amended_top_level_value treeTwoFuncs cfgTop1 initState funcTwo rfl rfl rfl (by decide)

/-- C2 (corrected): for two directly consecutive methods of the same class
with configured between-methods value 1, the second method's keyword gets
annotation value 2, i.e. one blank line, whereas the claim's formula
max(1, 1 + 1) demands two blank lines (annotation value 3). -/
theorem c2_counterexample :
    annAfter cfgTop1 treeClassTwoMethods 7 = some 2 ∧
      annAfter cfgTop1 treeClassTwoMethods 7 ≠
        some (1 + max 1 (1 + cfgTop1.BLANK_LINES_BETWEEN_CLASS_DEFS)) := by
  decide

/-- C2 (amended): for a non-top-level node not preceded by a decorator,
when the remembered previous statement and the node resolve to the same
class, the annotation value is max(2, 1 + configured between-methods
value) — at least one blank line even when the configured value computes
to zero or less, and the blank-line count is max(1, configured value);
when either side fails to resolve or there is no previous statement, the
annotation value is 1, i.e. zero blank lines. -/
theorem c2_amended_same_class_floor (root : PTree) (cfg : StyleConfig) (s : BLState)
    (t : PTree) (hdec : s.last_was_decorator = false)
    (htop : IsTopLevel root s t = false) :
    (∀ p, s.prev_stmt = some p → MethodsInSameClass root p t.id = true →
       GetNumNewlines root cfg s t =
         max ONE_BLANK_LINE (1 + cfg.BLANK_LINES_BETWEEN_CLASS_DEFS)) ∧
    ((∀ p, s.prev_stmt = some p → MethodsInSameClass root p t.id = false) →
       GetNumNewlines root cfg s t = NO_BLANK_LINES) := by
  constructor
  · intro p hp hm
    simp [GetNumNewlines, hdec, htop, hp, hm]
  · intro h
    cases hps : s.prev_stmt with
    | none => simp [GetNumNewlines, hdec, htop, hps]
    | some p => simp [GetNumNewlines, hdec, htop, hps, h p hps]

theorem c2_witness :
    GetNumNewlines treeClassTwoMethods cfgTop1 stateInsideClass methodTwo =
      max ONE_BLANK_LINE (1 + cfgTop1.BLANK_LINES_BETWEEN_CLASS_DEFS) :=
  (c2_amended_same_class_floor treeClassTwoMethods cfgTop1 stateInsideClass methodTwo
    rfl (by decide)).1 4 rfl (by decide)

/-- C3 (code bug): on a non-async top-level function definition with one
leading comment child, the walk visits the comment token twice — the
duplicated unconditional call of _SetBlankLinesBetweenCommentAndClassFunc
at line 103 of blank_line_calculator.py re-runs the comment loop that the
else branch at line 109 runs again — contradicting the spec's guarantee
that no node is ever revisited. -/
theorem c3_comment_leaf_visited_twice :
    (walkVisits cfgTop1 treeFuncLeadingComment).count 3 = 2 := by
  decide

theorem writes_getLast_append (l : Writes) (a : Nat × Option Int) :
    (l ++ [a]).getLast? = some a := by
  rw [List.getLast?_append_cons]
  rfl

/-- C5 (confirmed): a decorator preceded by another decorator, or by a
standalone comment on the directly preceding line, gets annotation value 1
(zero blank lines) on its first token; and the generic rule returns value 1
whenever the previous sibling was a decorator, overriding every other
rule. -/
theorem c5_decorator_hugging (root : PTree) (cfg : StyleConfig) (fuel : Nat) (s : BLState)
    (t : PTree) (c0 : PTree) (cs : List PTree)
    (hk : t.kind = "decorator") (hcs : t.children = c0 :: cs)
    (h : s.last_was_decorator = true ∨
         (s.last_comment_lineno ≠ 0 ∧ s.last_comment_lineno + 1 = c0.lineno)) :
    (VisitSeq root cfg (fuel + 1) s [t]).2.1.head? = some (c0.id, some NO_BLANK_LINES) ∧
      (s.last_was_decorator = true → GetNumNewlines root cfg s t = NO_BLANK_LINES) := by
  constructor
  · rw [visitSeq_succ_cons]
    rcases h with hd | ⟨hne, hln⟩
    · by_cases hcc : (s.last_comment_lineno != 0 &&
          s.last_comment_lineno + 1 == c0.lineno) = true
      · simp [VisitNode, DecoratorWrite, hk, hcs, hcc, visitSeq_nil]
      · simp [VisitNode, DecoratorWrite, hk, hcs, hcc, hd, visitSeq_nil]
    · have h1 : (s.last_comment_lineno != 0) = true := by simp [hne]
      have h2 : (s.last_comment_lineno + 1 == c0.lineno) = true := by simp [hln]
      simp [VisitNode, DecoratorWrite, hk, hcs, h1, h2, visitSeq_nil]
  · intro hd
    simp [GetNumNewlines, hd]

theorem c5_witness :
    (VisitSeq treeDecorator cfgTop1 3 stateAfterDecorator [treeDecorator]).2.1.head? =
      some (1, some NO_BLANK_LINES) ∧
      (stateAfterDecorator.last_was_decorator = true →
        GetNumNewlines treeDecorator cfgTop1 stateAfterDecorator treeDecorator =
          NO_BLANK_LINES) := by
  have h := c5_decorator_hugging treeDecorator cfgTop1 2 stateAfterDecorator treeDecorator
    (node 1 "OP" 5 0 []) [node 2 "NAME" 5 1 []] rfl rfl (Or.inl rfl)
  exact ⟨h.1, h.2⟩

/-- C6 (confirmed): visiting an async function definition applies the
comment placement routine to the enclosing async unit and writes an
explicit None onto the def keyword, so the def keyword ends the walk with
no annotation; end to end on an async def at top level the async keyword
carries the single annotation of the unit (exactly one write) and the def
keyword's final annotation is None. -/
theorem c6_async_folding (root : PTree) (cfg : StyleConfig) (fuel : Nat) (s : BLState)
    (t : PTree) (par : PTree) (c0 : PTree) (cs : List PTree)
    (hk : t.kind = "funcdef") (ha : AsyncFunction root t.id = true)
    (hp : parentOf root t.id = some par) (hcs : t.children = c0 :: cs) :
    (c0.id, (none : Option Int)) ∈ (VisitSeq root cfg (fuel + 1) s [t]).2.1 ∧
      annAfter cfgTop1 treeAsyncFunc 4 = none ∧
      annAfter cfgTop1 treeAsyncFunc 2 = some 1 ∧
      ((walkWrites cfgTop1 treeAsyncFunc).filter (fun p => p.1 == 2)).length = 1 := by
  refine ⟨?_, by decide, by decide, by decide⟩
  rw [visitSeq_succ_cons]
  simp [VisitNode, FuncdefSecondCall, hk, ha, hp, hcs, visitSeq_nil]

theorem c6_witness :
    ((4 : Nat), (none : Option Int)) ∈
      (VisitSeq treeAsyncFunc cfgTop1 3 initState
        [node 3 "funcdef" 1 6 [node 4 "NAME" 1 6 []]]).2.1 ∧
      annAfter cfgTop1 treeAsyncFunc 4 = none ∧
      annAfter cfgTop1 treeAsyncFunc 2 = some 1 ∧
      ((walkWrites cfgTop1 treeAsyncFunc).filter (fun p => p.1 == 2)).length = 1 :=
  c6_async_folding treeAsyncFunc cfgTop1 2 initState
    (node 3 "funcdef" 1 6 [node 4 "NAME" 1 6 []])
    (node 1 "async_stmt" 1 0
      [node 2 "ASYNC" 1 0 [], node 3 "funcdef" 1 6 [node 4 "NAME" 1 6 []]])
    (node 4 "NAME" 1 6 []) [] rfl rfl rfl rfl

/-- C7 (confirmed): in the comment placement routine of a class or
function definition, when the last leading comment sits on the line
directly above the first non-comment child, or the remembered last
standalone comment line plus one equals that child's line, the first
non-comment child is annotated with value 1, i.e. zero blank lines. -/
theorem c7_comment_attachment (root : PTree) (cfg : StyleConfig) (s : BLState) (t : PTree)
    (nxt : PTree)
    (hnxt : (t.children.drop (t.children.takeWhile IsCommentStatement).length).head? =
      some nxt)
    (h : (∃ lc, (t.children.takeWhile IsCommentStatement).getLast? = some lc ∧
            commentLeafLineno lc + 1 = nxt.lineno)
         ∨ s.last_comment_lineno + 1 = nxt.lineno) :
    (SetBlankLinesBetweenCommentAndClassFunc root cfg s t).1.getLast? =
      some (nxt.id, some NO_BLANK_LINES) := by
  rcases h with ⟨lc, hlc, hadj⟩ | h
  · have hb : (match (t.children.takeWhile IsCommentStatement).getLast? with
        | some lc => commentLeafLineno lc + 1 == nxt.lineno
        | none => false) = true := by
      rw [hlc]
      simp [hadj]
    simp [SetBlankLinesBetweenCommentAndClassFunc, hnxt, hb, writes_getLast_append]
  · by_cases hadjB : (match (t.children.takeWhile IsCommentStatement).getLast? with
        | some lc => commentLeafLineno lc + 1 == nxt.lineno
        | none => false) = true
    · simp [SetBlankLinesBetweenCommentAndClassFunc, hnxt, hadjB, writes_getLast_append]
    · have h2 : (s.last_comment_lineno + 1 == nxt.lineno) = true := by simp [h]
      simp [SetBlankLinesBetweenCommentAndClassFunc, hnxt, hadjB, h2,
        writes_getLast_append]

theorem c7_witness :
    (SetBlankLinesBetweenCommentAndClassFunc treeFuncLeadingComment cfgTop1 initState
      (node 1 "funcdef" 1 0
        [node 2 "simple_stmt" 1 0 [node 3 "COMMENT" 1 0 []],
         node 4 "NAME" 2 0 []])).1.getLast? =
      some (4, some NO_BLANK_LINES) :=
  c7_comment_attachment treeFuncLeadingComment cfgTop1 initState
    (node 1 "funcdef" 1 0
      [node 2 "simple_stmt" 1 0 [node 3 "COMMENT" 1 0 []],
       node 4 "NAME" 2 0 []])
    (node 4 "NAME" 2 0 []) rfl
    (Or.inl ⟨node 2 "simple_stmt" 1 0 [node 3 "COMMENT" 1 0 []], rfl, by decide⟩)

/-- C9 (confirmed): for a definition whose first non-comment child sits on
source line 1 and with no standalone comment seen yet (the sentinel 0 in
last_comment_lineno), the comment placement routine writes annotation
value 1 onto that child — the sentinel is not excluded from the adjacency
test, so the generic top-level count is bypassed; end to end, a lone
function on line 1 gets value 1 even though the configured top-level value
2 would give value 3. -/
theorem c9_line_one_sentinel (root : PTree) (cfg : StyleConfig) (s : BLState) (t : PTree)
    (c0 : PTree) (cs : List PTree)
    (hcs : t.children = c0 :: cs) (hnc : IsCommentStatement c0 = false)
    (hln : c0.lineno = 1) (hsc : s.last_comment_lineno = 0) :
    (SetBlankLinesBetweenCommentAndClassFunc root cfg s t).1 =
      [(c0.id, some NO_BLANK_LINES)] ∧
      annAfter cfgTop2 treeFuncLineOne 2 = some 1 := by
  constructor
  · simp [SetBlankLinesBetweenCommentAndClassFunc, hcs, hnc, hln, hsc,
      List.takeWhile_cons]
  · decide

theorem c9_witness :
    (SetBlankLinesBetweenCommentAndClassFunc treeFuncLineOne cfgTop2 initState
      (node 1 "funcdef" 1 0 [node 2 "NAME" 1 0 []])).1 =
      [(2, some NO_BLANK_LINES)] ∧
      annAfter cfgTop2 treeFuncLineOne 2 = some 1 :=
  c9_line_one_sentinel treeFuncLineOne cfgTop2 initState
    (node 1 "funcdef" 1 0 [node 2 "NAME" 1 0 []])
    (node 2 "NAME" 1 0 []) [] rfl (by decide) rfl rfl

/-- C10 (confirmed): visiting a decorator whose decorated target cannot be
resolved, or with no previous statement recorded, never reaches the
same-class branch (it is guarded by both being present): with the comment
and decorator guards false, the visit falls through to the generic rule
and still writes an annotation onto the decorator's first token. -/
theorem c10_decorator_safe_fallthrough (root : PTree) (cfg : StyleConfig) (fuel : Nat)
    (s : BLState) (t : PTree) (c0 : PTree) (cs : List PTree)
    (hk : t.kind = "decorator") (hcs : t.children = c0 :: cs)
    (hdec : s.last_was_decorator = false)
    (hcmt : s.last_comment_lineno = 0 ∨ s.last_comment_lineno + 1 ≠ c0.lineno)
    (h : DecoratedFuncdef root t.id = none ∨ s.prev_stmt = none) :
    (VisitSeq root cfg (fuel + 1) s [t]).2.1.head? =
      some (c0.id, some (GetNumNewlines root cfg s t)) := by
  rw [visitSeq_succ_cons]
  have hcc : (s.last_comment_lineno != 0 &&
      s.last_comment_lineno + 1 == c0.lineno) = false := by
    rcases hcmt with h0 | hne
    · simp [h0]
    · simp [hne]
  rcases h with hf | hps
  · simp [VisitNode, DecoratorWrite, hk, hcs, hcc, hdec, hf, visitSeq_nil]
  · simp [VisitNode, DecoratorWrite, hk, hcs, hcc, hdec, hps, visitSeq_nil]

theorem c10_witness :
    (VisitSeq treeDecorator cfgTop1 3 initState [treeDecorator]).2.1.head? =
      some (1, some (GetNumNewlines treeDecorator cfgTop1 initState treeDecorator)) :=
  c10_decorator_safe_fallthrough treeDecorator cfgTop1 2 initState treeDecorator
    (node 1 "OP" 5 0 []) [node 2 "NAME" 5 1 []] rfl rfl rfl
    (Or.inl rfl) (Or.inr rfl)

theorem applyWrites_eq_lookupLast (ws : Writes) :
    ∀ (a : Nat → Option Int) (j : Nat),
      applyWrites a ws j = (lookupLast ws j).getD (a j) := by
  induction ws with
  | nil => intro a j; rfl
  | cons x xs ih =>
    intro a j
    obtain ⟨i, v⟩ := x
    simp only [applyWrites, lookupLast]
    rw [ih]
    cases hl : lookupLast xs j with
    | some r => simp
    | none =>
      by_cases hj : j = i <;> simp [hj]

theorem writesOK_nil (cfg : StyleConfig) : WritesOK cfg [] := by
  intro p hp
  exact absurd hp (List.not_mem_nil p)

theorem writesOK_append {cfg : StyleConfig} {w1 w2 : Writes}
    (h1 : WritesOK cfg w1) (h2 : WritesOK cfg w2) : WritesOK cfg (w1 ++ w2) := by
  intro p hp
  rcases List.mem_append.mp hp with h | h
  · exact h1 p h
  · exact h2 p h

theorem writesOK_singleton {cfg : StyleConfig} {p : Nat × Option Int}
    (h : ValOK cfg p.2) : WritesOK cfg [p] := by
  intro q hq
  rcases List.mem_singleton.mp hq with rfl
  exact h

theorem getNumNewlines_valOK (root : PTree) (cfg : StyleConfig) (s : BLState)
    (t : PTree) : ValOK cfg (some (GetNumNewlines root cfg s t)) := by
  unfold GetNumNewlines ValOK
  split_ifs
  · exact Or.inr (Or.inl rfl)
  · exact Or.inr (Or.inr (Or.inr (Or.inl rfl)))
  · exact Or.inr (Or.inr (Or.inr (Or.inr rfl)))
  · exact Or.inr (Or.inl rfl)

theorem setBlankLines_writesOK (root : PTree) (cfg : StyleConfig) (s : BLState)
    (t : PTree) :
    WritesOK cfg (SetBlankLinesBetweenCommentAndClassFunc root cfg s t).1 := by
  have hcw : WritesOK cfg
      (if s.last_was_decorator then ([] : Writes)
       else (t.children.takeWhile IsCommentStatement).map
         (fun c => (commentLeafId c, some ONE_BLANK_LINE))) := by
    split_ifs
    · exact writesOK_nil cfg
    · intro p hp
      rcases List.mem_map.mp hp with ⟨c, _, rfl⟩
      exact Or.inr (Or.inr (Or.inl rfl))
  cases hh : (t.children.drop (t.children.takeWhile IsCommentStatement).length).head? with
  | none =>
    simp only [SetBlankLinesBetweenCommentAndClassFunc, hh]
    exact hcw
  | some nxt =>
    simp only [SetBlankLinesBetweenCommentAndClassFunc, hh]
    refine writesOK_append hcw ?_
    split_ifs
    · refine writesOK_singleton ?_
      exact Or.inr (Or.inl rfl)
    · refine writesOK_singleton ?_
      exact Or.inr (Or.inl rfl)
    · exact writesOK_singleton (getNumNewlines_valOK root cfg s t)

theorem defaultStampWrites_writesOK (root : PTree) (cfg : StyleConfig) (s : BLState)
    (t : PTree) : WritesOK cfg (DefaultStampWrites root cfg s t) := by
  unfold DefaultStampWrites
  split_ifs
  · exact writesOK_singleton (getNumNewlines_valOK root cfg s (FirstLeafNode t))
  · exact writesOK_nil cfg

theorem decoratorWrite_writesOK (root : PTree) (cfg : StyleConfig) (s : BLState)
    (t : PTree) : WritesOK cfg (DecoratorWrite root cfg s t) := by
  unfold DecoratorWrite
  cases t.children with
  | nil => exact writesOK_nil cfg
  | cons c0 cs =>
    show WritesOK cfg
      (if s.last_comment_lineno != 0 && s.last_comment_lineno + 1 == c0.lineno then
        [(c0.id, some NO_BLANK_LINES)]
      else if s.last_was_decorator then [(c0.id, some NO_BLANK_LINES)]
      else if (match DecoratedFuncdef root t.id, s.prev_stmt with
               | some f, some p => MethodsInSameClass root p f.id
               | _, _ => false) then
        [(c0.id, some (max ONE_BLANK_LINE (1 + cfg.BLANK_LINES_BETWEEN_CLASS_DEFS)))]
      else [(c0.id, some (GetNumNewlines root cfg s t))])
    split_ifs
    · refine writesOK_singleton ?_
      exact Or.inr (Or.inl rfl)
    · refine writesOK_singleton ?_
      exact Or.inr (Or.inl rfl)
    · refine writesOK_singleton ?_
      exact Or.inr (Or.inr (Or.inr (Or.inr rfl)))
    · exact writesOK_singleton (getNumNewlines_valOK root cfg s t)

theorem funcdefSecondCall_writesOK (root : PTree) (cfg : StyleConfig) (s0 : BLState)
    (t : PTree) : WritesOK cfg (FuncdefSecondCall root cfg s0 t).1 := by
  unfold FuncdefSecondCall
  split_ifs
  · cases parentOf root t.id with
    | none => exact writesOK_nil cfg
    | some par =>
      refine writesOK_append (setBlankLines_writesOK root cfg s0 par) ?_
      cases t.children with
      | nil => exact writesOK_nil cfg
      | cons c0 cs =>
        refine writesOK_singleton ?_
        exact Or.inl rfl
  · exact setBlankLines_writesOK root cfg s0 t

theorem visitNode_writesOK (root : PTree) (cfg : StyleConfig)
    (recurse : BLState → List PTree → BLState × Writes × List Nat)
    (hrec : ∀ s2 ts, WritesOK cfg (recurse s2 ts).2.1)
    (s : BLState) (t : PTree) :
    WritesOK cfg (VisitNode root cfg recurse s t).2.1 := by
  unfold VisitNode
  split_ifs
  · exact writesOK_append (defaultStampWrites_writesOK root cfg s t) (hrec _ _)
  · exact writesOK_append (decoratorWrite_writesOK root cfg s t) (hrec _ _)
  · exact writesOK_append (setBlankLines_writesOK root cfg _ t) (hrec _ _)
  · exact writesOK_append
      (writesOK_append (setBlankLines_writesOK root cfg _ t)
        (funcdefSecondCall_writesOK root cfg _ t))
      (hrec _ _)
  · exact writesOK_nil cfg
  · exact writesOK_append (defaultStampWrites_writesOK root cfg s t) (hrec _ _)

theorem visitSeq_writesOK (root : PTree) (cfg : StyleConfig) :
    ∀ (fuel : Nat) (s : BLState) (ts : List PTree),
      WritesOK cfg (VisitSeq root cfg fuel s ts).2.1 := by
  intro fuel
  induction fuel with
  | zero => intro s ts; exact writesOK_nil cfg
  | succ n ih =>
    intro s ts
    cases ts with
    | nil =>
      rw [visitSeq_nil]
      exact writesOK_nil cfg
    | cons t rest =>
      rw [visitSeq_succ_cons]
      exact writesOK_append
        (visitNode_writesOK root cfg (VisitSeq root cfg n) (fun s2 ts2 => ih s2 ts2) s t)
        (ih _ _)

/-- C4 (corrected): with configured top-level value 3 the walk writes
annotation value 4 onto the second top-level function's keyword — the
claimed range {1, 2, 3} does not hold for every configuration. -/
theorem c4_counterexample :
    (4, some (4 : Int)) ∈ walkWrites cfgTop3 treeTwoFuncs ∧
      annAfter cfgTop3 treeTwoFuncs 4 = some 4 ∧
      ¬(some (4 : Int) = none ∨ some (4 : Int) = some 1 ∨ some (4 : Int) = some 2 ∨
        some (4 : Int) = some 3) := by
  decide

/-- C4 (amended): every value the walk writes is either None or one of
1, 2, 1 + configured top-level value, max(2, 1 + configured
between-methods value); hence whenever the configured top-level value
lies in [0, 2] and the configured between-methods value is at most 2 —
which includes the defaults — every written value is None or in
{1, 2, 3}. -/
theorem c4_amended_annotation_range (cfg : StyleConfig) (tree : PTree)
    (h1 : 0 ≤ cfg.BLANK_LINES_AROUND_TOP_LEVEL_DEFINITION)
    (h2 : cfg.BLANK_LINES_AROUND_TOP_LEVEL_DEFINITION ≤ 2)
    (h3 : cfg.BLANK_LINES_BETWEEN_CLASS_DEFS ≤ 2) :
    ∀ i v, (i, v) ∈ walkWrites cfg tree →
      v = none ∨ v = some 1 ∨ v = some 2 ∨ v = some 3 := by
  intro i v hmem
  have hv := visitSeq_writesOK tree cfg (tree.size + 1) initState [tree] (i, v) hmem
  rcases hv with h | h | h | h | h
  · exact Or.inl h
  · exact Or.inr (Or.inl h)
  · exact Or.inr (Or.inr (Or.inl h))
  · have e : (1 : Int) + cfg.BLANK_LINES_AROUND_TOP_LEVEL_DEFINITION = 1 ∨
        (1 : Int) + cfg.BLANK_LINES_AROUND_TOP_LEVEL_DEFINITION = 2 ∨
        (1 : Int) + cfg.BLANK_LINES_AROUND_TOP_LEVEL_DEFINITION = 3 := by omega
    rcases e with e | e | e <;> rw [e] at h
    · exact Or.inr (Or.inl h)
    · exact Or.inr (Or.inr (Or.inl h))
    · exact Or.inr (Or.inr (Or.inr h))
  · have e : max ONE_BLANK_LINE (1 + cfg.BLANK_LINES_BETWEEN_CLASS_DEFS) = 2 ∨
        max ONE_BLANK_LINE (1 + cfg.BLANK_LINES_BETWEEN_CLASS_DEFS) = 3 := by
      unfold ONE_BLANK_LINE
      rcases le_or_lt (1 + cfg.BLANK_LINES_BETWEEN_CLASS_DEFS) 2 with hle | hlt
      · exact Or.inl (max_eq_left hle)
      · refine Or.inr ?_
        rw [max_eq_right (le_of_lt hlt)]
        omega
    rcases e with e | e <;> rw [e] at h
    · exact Or.inr (Or.inr (Or.inl h))
    · exact Or.inr (Or.inr (Or.inr h))

theorem c4_witness :
    some (3 : Int) = none ∨ some (3 : Int) = some 1 ∨ some (3 : Int) = some 2 ∨
      some (3 : Int) = some 3 :=
  c4_amended_annotation_range cfgTop2 treeTwoFuncs (by decide) (by decide) (by decide)
    4 (some 3) (by decide)

/-- C8 (confirmed): the walk never reads annotations (its result depends
only on the tree shape), so a second run over the unchanged tree produces
the same write list, and re-applying that write list to the annotation
store left by the first run restores exactly the same annotations: every
node keeps the value the first run gave it. -/
theorem c8_idempotent_annotations (cfg : StyleConfig) (tree : PTree)
    (a : Nat → Option Int) :
    applyWrites (applyWrites a (walkWrites cfg tree)) (walkWrites cfg tree) =
      applyWrites a (walkWrites cfg tree) := by
  funext j
  rw [applyWrites_eq_lookupLast, applyWrites_eq_lookupLast]
  cases hl : lookupLast (walkWrites cfg tree) j <;> simp [hl]

end Yapf

